import Mathlib

/-!
Shallow embedding of `src/plugin.tsx` (Framer usage-scanner plugin).

The plugin consists of three pieces of logic:
* `fetchSize` — probes a URL's byte size via an HTTP HEAD request, falling
  back to downloading the body;
* `scan` — walks canvas nodes and CMS collections/items, counting every
  occurrence of a URL containing the fixed host substring
  `framerusercontent.com`, then resets the selection state;
* `replace` — rewrites every reference whose value is a member of the
  selected-URL set with a user-entered replacement URL, then rescans and
  clears the pending input.

JavaScript values appearing in node props and item fields are modelled by
`JSValue` (strings, numbers, booleans, null, undefined) together with a
`truthy` predicate mirroring JavaScript truthiness (NaN is not modelled;
no claim depends on it).  The host capability object (`framer`) is
modelled by `Host`, where each optionally-chained enumeration API
(`getNodes?.()`, `cms.getCollections?.()`, `cms.getItems?.(id)`) is an
optional capability, and `|| []` defaulting is `Option.getD []`.
Mutations (`node.setProps`, `cms.patchItem`) and the triggered rescan are
recorded as an explicit `Effect` trace.
-/

namespace FramerPlugin

/-- The fixed host-identifying substring (`'framerusercontent.com'`). -/
def hostSubstr : String := "framerusercontent.com"

/-- `isPrefixList pat l` : `pat` is a prefix of `l` (on character lists). -/
def isPrefixList : List Char → List Char → Bool
  | [], _ => true
  | _ :: _, [] => false
  | a :: as, b :: bs => a == b && isPrefixList as bs

/-- Helper for `jsIncludes`: does `pat` occur as a contiguous sublist of `l`? -/
def includesAux (pat : List Char) : List Char → Bool
  | [] => isPrefixList pat []
  | c :: cs => isPrefixList pat (c :: cs) || includesAux pat cs

/-- JavaScript `s.includes(pat)` : substring containment test. -/
def jsIncludes (s pat : String) : Bool :=
  includesAux pat.data s.data

/-- A JavaScript value as it can appear in node props or CMS item fields. -/
inductive JSValue where
  | str (s : String)
  | num (n : Int)
  | boolean (b : Bool)
  | null
  | undefined
deriving DecidableEq, Repr

/-- JavaScript truthiness of a `JSValue` (`''`, `0`, `false`, `null`,
`undefined` are falsy; every other modelled value is truthy). -/
def truthy : JSValue → Bool
  | .str s => s != ""
  | .num n => n != 0
  | .boolean b => b
  | .null => false
  | .undefined => false

/-- A canvas node, reduced to the two property slots the plugin reads and
writes (`props.image` and `props.src`); an absent slot is `undefined`. -/
structure Node where
  image : JSValue
  src : JSValue
deriving DecidableEq, Repr

/-- `props.image || props.src` — the node's resolved URL value: the primary
`image` slot when it is truthy, otherwise the fallback `src` slot. -/
def resolvedUrl (n : Node) : JSValue :=
  if truthy n.image then n.image else n.src

/-- `typeof url === 'string' && url.includes('framerusercontent.com')`:
`some s` when the value is a string containing the host substring. -/
def qualify (v : JSValue) : Option String :=
  match v with
  | .str s => if jsIncludes s hostSubstr then some s else none
  | _ => none

/-- A CMS item: an id and its field mapping (`item.fields || {}` is the
empty list). -/
structure Item where
  id : String
  fields : List (String × JSValue)
deriving DecidableEq, Repr

/-- A CMS collection: an id and its items. -/
structure Collection where
  id : String
  items : List Item
deriving DecidableEq, Repr

/-- The host capability object (`framer`).  Each enumeration API is
optionally present, mirroring the optional chaining `framer.getNodes?.()`,
`framer.cms.getCollections?.()` and `framer.cms.getItems?.(id)`:  `none`
models an absent capability (the call evaluates to `undefined`). -/
structure Host where
  getNodes : Option (List Node)
  getCollections : Option (List Collection)
  getItemsAvailable : Bool
deriving DecidableEq, Repr

/-- `(await framer.getNodes?.()) || []`. -/
def effNodes (h : Host) : List Node :=
  h.getNodes.getD []

/-- `(await framer.cms.getCollections?.()) || []`. -/
def effCols (h : Host) : List Collection :=
  h.getCollections.getD []

/-- `(await framer.cms.getItems?.(col.id)) || []` — the items of a
collection, empty when the `getItems` capability is absent. -/
def getItems (avail : Bool) (c : Collection) : List Item :=
  if avail then c.items else []

/-- `usages[url] = (usages[url] || 0) + 1` on the usage map (the JS object
`usages` is modelled as a total function with default `0`). -/
def bump (m : String → Nat) (u : String) : String → Nat :=
  fun k => if k = u then m k + 1 else m k

/-- The canvas pass of `scan`: fold over the nodes, bumping the count of
each node's resolved URL when it qualifies. -/
def scanNodes (ns : List Node) (m : String → Nat) : String → Nat :=
  ns.foldl (fun acc n =>
    match qualify (resolvedUrl n) with
    | some u => bump acc u
    | none => acc) m

/-- The field loop of the CMS pass: fold over an item's field values. -/
def scanFields (fs : List (String × JSValue)) (m : String → Nat) : String → Nat :=
  fs.foldl (fun acc kv =>
    match qualify kv.2 with
    | some u => bump acc u
    | none => acc) m

/-- The item loop of the CMS pass. -/
def scanItems (its : List Item) (m : String → Nat) : String → Nat :=
  its.foldl (fun acc it => scanFields it.fields acc) m

/-- The collection loop of the CMS pass. -/
def scanCollections (avail : Bool) (cs : List Collection) (m : String → Nat) :
    String → Nat :=
  cs.foldl (fun acc c => scanItems (getItems avail c) acc) m

/-- The usage map produced by one `scan`: canvas pass first, then the CMS
pass, starting from the empty map. -/
def scanUsages (host : Host) : String → Nat :=
  scanCollections host.getItemsAvailable (effCols host)
    (scanNodes (effNodes host) (fun _ => 0))

/-- The component's state: the per-URL usage counts of the last scan
(`images`; per-URL sizes are resolved independently by `fetchSize` and
never influence control flow), the pending replacement URL (`newUrl`) and
the selection mapping (`selected`). -/
structure UIState where
  images : String → Nat
  newUrl : String
  selected : List (String × Bool)

/-- `scan` as a state transition: recompute the usage map from the host and
reset the selection (`setImages(list); setSelected({})`). -/
def scan (host : Host) (st : UIState) : UIState :=
  { images := scanUsages host, newUrl := st.newUrl, selected := [] }

/-- `Object.keys(selected).filter(k => selected[k])`. -/
def selectedTargets (st : UIState) : List String :=
  (st.selected.filter (fun kv => kv.2)).map (fun kv => kv.1)

/-- The value of a `content-length` response header as seen through
`res.headers.get(...)`: `none` models the JS `null` of an absent header. -/
structure HeadResponse where
  contentLength : Option String
deriving DecidableEq, Repr

/-- Outcome of an awaited network step: a value, or a thrown error
(network failure of `fetch`, or of `r.blob()`). -/
inductive NetResult (α : Type) where
  | ok (value : α)
  | err
deriving DecidableEq, Repr

/-- The network environment one `fetchSize` call runs against: the outcome
of the HEAD request and the outcome of the fallback GET (the GET's value is
`blob.size`, the body's byte length; a failure of either the GET itself or
of reading its blob is `err`). -/
structure FetchEnv where
  head : NetResult HeadResponse
  get : NetResult Nat
deriving DecidableEq, Repr

/-- A `fetchSize` result: a JS number (`size`), the JS number `NaN`
(`parseInt` on a non-numeric string), or `undefined` (the catch branch). -/
inductive FetchSizeResult where
  | size (n : Int)
  | nan
  | undefined
deriving DecidableEq, Repr

/-- JavaScript `parseInt(s)` (radix 10): skip leading whitespace, read an
optional sign, then the longest run of decimal digits; `none` models `NaN`
(no digits).  The `0x` hex-prefix rule is not modelled: no claim involves
a header starting with `0x`. -/
def jsParseInt (s : String) : Option Int :=
  let cs := s.data.dropWhile Char.isWhitespace
  let signed : Int × List Char :=
    match cs with
    | '-' :: rest => (-1, rest)
    | '+' :: rest => (1, rest)
    | _ => (1, cs)
  let ds := signed.2.takeWhile Char.isDigit
  if ds.isEmpty then none
  else some (signed.1 * (ds.foldl (fun a c => a * 10 + (c.toNat - 48)) 0 : Nat))

/-- The fallback branch of `fetchSize`: `const r = await fetch(url); const
blob = await r.blob(); return blob.size`, with a thrown error landing in
the surrounding catch (`undefined`). -/
def fetchBody (env : FetchEnv) : FetchSizeResult :=
  match env.get with
  | .ok n => .size (n : Int)
  | .err => .undefined

/-- `fetchSize` from `src/plugin.tsx`: HEAD first; if the `content-length`
header is truthy (present and non-empty) return `parseInt` of it — even
when that is `NaN`; otherwise fall back to downloading the body; any
thrown error yields `undefined`. -/
def fetchSize (env : FetchEnv) : FetchSizeResult :=
  match env.head with
  | .err => .undefined
  | .ok res =>
    match res.contentLength with
    | some s =>
      if s != "" then
        match jsParseInt s with
        | some n => .size n
        | none => .nan
      else fetchBody env
    | none => fetchBody env

/-- `true` when the HEAD request succeeded but its `content-length` header
is falsy (absent or empty), i.e. exactly when `fetchSize` takes the
GET-based fallback path. -/
def headerFalsy (env : FetchEnv) : Bool :=
  match env.head with
  | .err => false
  | .ok res =>
    match res.contentLength with
    | some s => s == ""
    | none => true

/-- A recorded side effect of `replace`: one `node.setProps?.({image:
newUrl, src: newUrl})` call, one `framer.cms.patchItem?.(colId, itemId,
fields)` call, or the final `await scan()`. -/
inductive Effect where
  | setProps (node : Node) (url : String)
  | patchItem (colId itemId : String) (fields : List (String × JSValue))
  | rescan
deriving DecidableEq, Repr

/-- The node loop body of `replace`: when the node's resolved URL is a
string belonging to the target list, set both the `image` and `src` slots
to the replacement URL (the `Bool` records whether `setProps` was
issued). -/
def replaceNode (ts : List String) (u : String) (n : Node) : Node × Bool :=
  match resolvedUrl n with
  | .str s => if ts.contains s then (⟨.str u, .str u⟩, true) else (n, false)
  | _ => (n, false)

/-- The field loop body of `replace`: overwrite a field whose value is a
string belonging to the target list (the `Bool` is the `changed` flag
contribution of this field). -/
def replaceField (ts : List String) (u : String) (kv : String × JSValue) :
    (String × JSValue) × Bool :=
  match kv.2 with
  | .str s => if ts.contains s then ((kv.1, .str u), true) else (kv, false)
  | _ => (kv, false)

/-- The item loop body of `replace`: rewrite every matching field; the
`Bool` is the item's `changed` flag (a patch is issued iff it is true;
either way the item's fields end up as the rewritten field list, which is
unchanged field-by-field when no field matched). -/
def replaceItem (ts : List String) (u : String) (it : Item) : Item × Bool :=
  let rs := it.fields.map (replaceField ts u)
  (⟨it.id, rs.map Prod.fst⟩, rs.any Prod.snd)

/-- Effect of `replace` on one collection: its items are rewritten exactly
when the `getItems` capability is available (otherwise the item loop runs
over the empty list and the collection's items are never read). -/
def replaceCollection (avail : Bool) (ts : List String) (u : String)
    (c : Collection) : Collection :=
  if avail then ⟨c.id, c.items.map (fun it => (replaceItem ts u it).1)⟩ else c

/-- The `setProps` calls issued by the node loop of `replace`, in order. -/
def nodeEffects (host : Host) (ts : List String) (u : String) : List Effect :=
  (effNodes host).filterMap (fun n =>
    if (replaceNode ts u n).2 then some (.setProps n u) else none)

/-- The `patchItem` calls issued by the CMS loop of `replace`, in order. -/
def itemEffects (host : Host) (ts : List String) (u : String) : List Effect :=
  (effCols host).foldr (fun c acc =>
    ((getItems host.getItemsAvailable c).filterMap (fun it =>
      if (replaceItem ts u it).2 then
        some (.patchItem c.id it.id (replaceItem ts u it).1.fields)
      else none)) ++ acc) []

/-- `replace` from `src/plugin.tsx` as a transition on the host state and
the component state, together with its trace of issued effects:  compute
the target list from the selection; return immediately when the
replacement URL is empty or no target is selected; otherwise rewrite the
canvas nodes, rewrite the CMS items, rescan, and clear the pending
replacement URL. -/
def replace (host : Host) (st : UIState) : Host × UIState × List Effect :=
  let ts := selectedTargets st
  if st.newUrl = "" ∨ ts = [] then (host, st, [])
  else
    let host' : Host :=
      { getNodes := host.getNodes.map (fun l =>
          l.map (fun n => (replaceNode ts st.newUrl n).1)),
        getCollections := host.getCollections.map (fun l =>
          l.map (replaceCollection host.getItemsAvailable ts st.newUrl)),
        getItemsAvailable := host.getItemsAvailable }
    (host', { scan host' st with newUrl := "" },
      nodeEffects host ts st.newUrl ++ itemEffects host ts st.newUrl
        ++ [.rescan])

end FramerPlugin

namespace FramerPlugin

/-- Evaluating the usage map after one bump. -/
theorem bump_apply (m : String → Nat) (u k : String) :
    bump m u k = m k + (if k = u then 1 else 0) := by
  unfold bump
  split <;> simp

/-- A fold of bumps over a scored list counts the elements scoring `u`. -/
theorem foldl_bump_apply {α : Type} (f : α → Option String) (l : List α)
    (m : String → Nat) (u : String) :
    (l.foldl (fun acc a =>
        match f a with
        | some v => bump acc v
        | none => acc) m) u
      = m u + l.countP (fun a => f a == some u) := by
  induction l generalizing m with
  | nil => simp
  | cons a l ih =>
    rw [List.foldl_cons, List.countP_cons, ih]
    cases hf : f a with
    | none => simp [hf]
    | some v =>
      simp only [hf, bump_apply]
      by_cases hv : v = u
      · subst hv
        simp
        omega
      · simp [hv]
        exact fun h => hv h.symm

/-- The canvas pass adds one per node whose resolved URL qualifies as `u`. -/
theorem scanNodes_apply (ns : List Node) (m : String → Nat) (u : String) :
    scanNodes ns m u
      = m u + ns.countP (fun n => qualify (resolvedUrl n) == some u) :=
  foldl_bump_apply (fun n => qualify (resolvedUrl n)) ns m u

/-- The field loop adds one per field value qualifying as `u`. -/
theorem scanFields_apply (fs : List (String × JSValue)) (m : String → Nat)
    (u : String) :
    scanFields fs m u
      = m u + fs.countP (fun kv => qualify kv.2 == some u) :=
  foldl_bump_apply (fun kv : String × JSValue => qualify kv.2) fs m u

/-- The item loop adds the per-item field counts. -/
theorem scanItems_apply (its : List Item) (m : String → Nat) (u : String) :
    scanItems its m u
      = m u + (its.map (fun it =>
          it.fields.countP (fun kv => qualify kv.2 == some u))).sum := by
  induction its generalizing m with
  | nil => simp [scanItems]
  | cons it its ih =>
    have hc : scanItems (it :: its) m = scanItems its (scanFields it.fields m) := rfl
    rw [hc, ih, scanFields_apply]
    simp
    omega

/-- The collection loop adds the per-collection item sums. -/
theorem scanCollections_apply (avail : Bool) (cs : List Collection)
    (m : String → Nat) (u : String) :
    scanCollections avail cs m u
      = m u + (cs.map (fun c =>
          ((getItems avail c).map (fun it =>
            it.fields.countP (fun kv => qualify kv.2 == some u))).sum)).sum := by
  induction cs generalizing m with
  | nil => simp [scanCollections]
  | cons c cs ih =>
    have hc : scanCollections avail (c :: cs) m
        = scanCollections avail cs (scanItems (getItems avail c) m) := rfl
    rw [hc, ih, scanItems_apply]
    simp
    omega

/-- The usage map of a scan, as an explicit occurrence count (shared by the
scan-count and replace-postcondition theorems). -/
theorem scanUsages_apply (host : Host) (u : String) :
    scanUsages host u
      = (effNodes host).countP (fun n => qualify (resolvedUrl n) == some u)
        + ((effCols host).map (fun c =>
            ((getItems host.getItemsAvailable c).map (fun it =>
              it.fields.countP (fun kv => qualify kv.2 == some u))).sum)).sum := by
  unfold scanUsages
  rw [scanCollections_apply, scanNodes_apply]
  omega

/-- Inversion for `qualify`: a qualifying value is the string itself, and
that string contains the host substring. -/
theorem qualify_eq_some {v : JSValue} {u : String} (h : qualify v = some u) :
    v = JSValue.str u ∧ jsIncludes u hostSubstr = true := by
  cases v <;> simp [qualify] at h
  case str s =>
    obtain ⟨hc, hs⟩ := h
    subst hs
    exact ⟨rfl, hc⟩

/-- A non-empty pattern is not contained in the empty string, hence a
qualifying string is non-empty. -/
theorem qualify_ne_empty {v : JSValue} {u : String} (h : qualify v = some u) :
    u ≠ "" := by
  intro h0
  subst h0
  have := (qualify_eq_some h).2
  exact absurd this (by decide)

/-- `Option.map (List.map f)` then `|| []` defaulting commutes with
defaulting first. -/
theorem optionMapGetD {α β : Type} (o : Option (List α)) (f : α → β) :
    (o.map (List.map f)).getD [] = (o.getD []).map f := by
  cases o <;> rfl

/-- C2 — for every project state, the count reported by `scan` for a URL is
the number of qualifying node occurrences (one per node whose resolved
`image`/`src` value is a string containing the host substring) plus the
number of qualifying item-field occurrences (one per string field value
containing the host substring), across both sources combined. -/
theorem scan_count_combined (host : Host) (st : UIState) (u : String) :
    (scan host st).images u
      = (effNodes host).countP (fun n => qualify (resolvedUrl n) == some u)
        + ((effCols host).map (fun c =>
            ((getItems host.getItemsAvailable c).map (fun it =>
              it.fields.countP (fun kv => qualify kv.2 == some u))).sum)).sum :=
  scanUsages_apply host u

/-- C9 — immediately after every scan (initial load, manual rescan, or the
rescan inside `replace`, which reuses `scan`), the selection state is the
empty mapping, whatever it was before. -/
theorem scan_resets_selection (host : Host) (st : UIState) :
    (scan host st).selected = [] := rfl

/-- C4 — an absent host API is an empty source, never an error: a missing
`getNodes` behaves as an empty node list, a missing `getCollections` as an
empty collection list, and a missing `getItems` as every collection being
empty (the scan is a total function: no exception is modelled because the
optional-chaining plus `|| []` defaulting leaves no failing path). -/
theorem scan_absent_api_as_empty (ns : Option (List Node))
    (cs : Option (List Collection)) (b : Bool) (u : String) :
    scanUsages ⟨none, cs, b⟩ u = scanUsages ⟨some [], cs, b⟩ u
    ∧ scanUsages ⟨ns, none, b⟩ u = scanUsages ⟨ns, some [], b⟩ u
    ∧ scanUsages ⟨ns, cs, false⟩ u = scanUsages ⟨ns, none, false⟩ u := by
  refine ⟨rfl, rfl, ?_⟩
  rw [scanUsages_apply, scanUsages_apply]
  simp [getItems, effCols, effNodes]

/-- C6 — `replace` is a no-op (state untouched, no mutation effects, no
rescan) when the replacement URL is empty or no URL is selected. -/
theorem replace_noop_on_empty (host : Host) (st : UIState)
    (hpre : st.newUrl = "" ∨ selectedTargets st = []) :
    replace host st = (host, st, ([] : List Effect)) := by
  simp only [replace, if_pos hpre]

theorem replace_noop_on_empty_witness :
    replace ⟨some [⟨.str "https://framerusercontent.com/a", .undefined⟩], none, true⟩
        ⟨fun _ => 0, "", [("https://framerusercontent.com/a", true)]⟩
      = (⟨some [⟨.str "https://framerusercontent.com/a", .undefined⟩], none, true⟩,
         ⟨fun _ => 0, "", [("https://framerusercontent.com/a", true)]⟩,
         ([] : List Effect)) :=
  replace_noop_on_empty _ _ (Or.inl rfl)

/-- C3 counterexample — the claim "if the primary `image` slot holds a
string, that value is used and the fallback is ignored" fails when the
primary slot holds the empty string: `'' || src` is falsy, so the fallback
`src` value is resolved and counted (the claim predicts the node counts
nothing, since `''` does not qualify). -/
theorem node_priority_empty_primary_cex :
    resolvedUrl ⟨.str "", .str "https://framerusercontent.com/a"⟩
        = JSValue.str "https://framerusercontent.com/a"
    ∧ scanUsages ⟨some [⟨.str "", .str "https://framerusercontent.com/a"⟩], none, true⟩
        "https://framerusercontent.com/a" = 1 :=
  ⟨by decide, by decide⟩

/-- C3 amended — the Collector reads `image` before `src`: a *truthy*
(non-empty) string in the primary slot is used and the fallback ignored;
an empty-string primary falls through to the fallback; in particular, when
both slots hold qualifying strings (which are necessarily non-empty), only
the primary slot's URL is the node's resolved, counted URL. -/
theorem node_slot_priority (n : Node) :
    (∀ s, n.image = JSValue.str s → s ≠ "" → resolvedUrl n = JSValue.str s)
    ∧ (n.image = JSValue.str "" → resolvedUrl n = n.src)
    ∧ (∀ s t, qualify n.image = some s → qualify n.src = some t →
        qualify (resolvedUrl n) = some s) := by
  refine ⟨?_, ?_, ?_⟩
  · intro s hs hne
    unfold resolvedUrl
    rw [hs]
    simp [truthy, hne]
  · intro h
    unfold resolvedUrl
    rw [h]
    simp [truthy]
  · intro s t hs ht
    have hi := (qualify_eq_some hs).1
    have hne := qualify_ne_empty hs
    have hres : resolvedUrl n = JSValue.str s := by
      unfold resolvedUrl
      rw [hi]
      simp [truthy, hne]
    rw [hres, ← hi]
    exact hs

theorem node_slot_priority_witness :
    qualify (resolvedUrl ⟨.str "https://framerusercontent.com/a",
        .str "https://framerusercontent.com/b"⟩)
      = some "https://framerusercontent.com/a" :=
  (node_slot_priority ⟨.str "https://framerusercontent.com/a",
      .str "https://framerusercontent.com/b"⟩).2.2
    "https://framerusercontent.com/a" "https://framerusercontent.com/b"
    (by decide) (by decide)

/-- `replaceNode` on a node whose resolved URL is a targeted string: both
slots are set to the replacement URL and `setProps` is flagged. -/
theorem replaceNode_matched (ts : List String) (u : String) (n : Node) (s : String)
    (hres : resolvedUrl n = JSValue.str s) (hsel : s ∈ ts) :
    replaceNode ts u n = (⟨JSValue.str u, JSValue.str u⟩, true) := by
  unfold replaceNode
  rw [hres]
  simp [hsel]

/-- `replaceField` on a field holding a targeted string value. -/
theorem replaceField_matched (ts : List String) (u : String)
    (kv : String × JSValue) (s : String)
    (hv : kv.2 = JSValue.str s) (hsel : s ∈ ts) :
    replaceField ts u kv = ((kv.1, JSValue.str u), true) := by
  unfold replaceField
  rw [hv]
  simp [hsel]

/-- `replaceNode` leaves a node untouched when its resolved URL is not a
targeted string. -/
theorem replaceNode_unmatched (ts : List String) (u : String) (n : Node)
    (h : ∀ s, resolvedUrl n = JSValue.str s → s ∉ ts) :
    replaceNode ts u n = (n, false) := by
  unfold replaceNode
  cases hres : resolvedUrl n with
  | str s => simp [h s hres]
  | num m => rfl
  | boolean b => rfl
  | null => rfl
  | undefined => rfl

/-- `replaceField` leaves a field untouched when its value is not a
targeted string. -/
theorem replaceField_unmatched (ts : List String) (u : String)
    (kv : String × JSValue)
    (h : ∀ s, kv.2 = JSValue.str s → s ∉ ts) :
    replaceField ts u kv = (kv, false) := by
  unfold replaceField
  cases hv : kv.2 with
  | str s => simp [h s hv]
  | num m => rfl
  | boolean b => rfl
  | null => rfl
  | undefined => rfl

/-- After the node pass with a non-targeted, non-empty replacement URL, no
node resolves to a targeted URL any more. -/
theorem replaceNode_clears_target (ts : List String) (w : String) (n : Node)
    (u : String) (hw : w ≠ "") (hwu : w ∉ ts) (hu : u ∈ ts) :
    qualify (resolvedUrl (replaceNode ts w n).1) ≠ some u := by
  intro hq
  by_cases hm : ∃ s, resolvedUrl n = JSValue.str s ∧ s ∈ ts
  · obtain ⟨s, hres, hc⟩ := hm
    rw [replaceNode_matched ts w n s hres hc] at hq
    have hres' : resolvedUrl ⟨JSValue.str w, JSValue.str w⟩ = JSValue.str w := by
      simp [resolvedUrl, truthy, hw]
    rw [hres'] at hq
    obtain ⟨heq, -⟩ := qualify_eq_some hq
    obtain rfl : w = u := by injection heq
    exact hwu hu
  · push_neg at hm
    rw [replaceNode_unmatched ts w n hm] at hq
    obtain ⟨heq, -⟩ := qualify_eq_some hq
    exact hm u heq hu

/-- After the field pass with a non-targeted replacement URL, no field
holds a targeted URL any more. -/
theorem replaceField_clears_target (ts : List String) (w : String)
    (kv : String × JSValue) (u : String) (hwu : w ∉ ts) (hu : u ∈ ts) :
    qualify (replaceField ts w kv).1.2 ≠ some u := by
  intro hq
  by_cases hm : ∃ s, kv.2 = JSValue.str s ∧ s ∈ ts
  · obtain ⟨s, hv, hc⟩ := hm
    rw [replaceField_matched ts w kv s hv hc] at hq
    obtain ⟨heq, -⟩ := qualify_eq_some hq
    obtain rfl : w = u := by injection heq
    exact hwu hu
  · push_neg at hm
    rw [replaceField_unmatched ts w kv hm] at hq
    obtain ⟨heq, -⟩ := qualify_eq_some hq
    exact hm u heq hu

/-- C7 — for every node whose resolved URL belongs to the selection, the
node loop of `replace` issues a single property update setting *both* the
primary `image` slot and the fallback `src` slot to the replacement URL
(regardless of which slot originally held the match), and that `setProps`
call appears in the effect trace of `replace`. -/
theorem replace_writes_both_slots (host : Host) (st : UIState) (n : Node)
    (s : String)
    (hn : n ∈ effNodes host)
    (hres : resolvedUrl n = JSValue.str s)
    (hsel : s ∈ selectedTargets st)
    (hurl : st.newUrl ≠ "") :
    replaceNode (selectedTargets st) st.newUrl n
        = (⟨JSValue.str st.newUrl, JSValue.str st.newUrl⟩, true)
    ∧ Effect.setProps n st.newUrl ∈ (replace host st).2.2 := by
  have hrn := replaceNode_matched (selectedTargets st) st.newUrl n s hres hsel
  refine ⟨hrn, ?_⟩
  have hts : selectedTargets st ≠ [] := by
    intro h
    rw [h] at hsel
    exact absurd hsel (List.not_mem_nil s)
  simp only [replace, if_neg (not_or.mpr ⟨hurl, hts⟩)]
  apply List.mem_append_left
  apply List.mem_append_left
  unfold nodeEffects
  apply List.mem_filterMap.mpr
  refine ⟨n, hn, ?_⟩
  rw [hrn]
  rfl

theorem replace_writes_both_slots_witness :
    replaceNode (selectedTargets ⟨fun _ => 0, "y", [("x", true)]⟩) "y"
        ⟨.undefined, .str "x"⟩ = (⟨JSValue.str "y", JSValue.str "y"⟩, true)
    ∧ Effect.setProps ⟨.undefined, .str "x"⟩ "y"
        ∈ (replace ⟨some [⟨.undefined, .str "x"⟩], none, true⟩
            ⟨fun _ => 0, "y", [("x", true)]⟩).2.2 :=
  replace_writes_both_slots ⟨some [⟨.undefined, .str "x"⟩], none, true⟩
    ⟨fun _ => 0, "y", [("x", true)]⟩ ⟨.undefined, .str "x"⟩ "x"
    (by decide) (by decide) (by decide) (by decide)

/-- C10 — `replace` matches by exact string equality against the selection
set alone, with no re-qualification against the host substring: a resolved
node URL or field value equal to a selected URL is overwritten even when it
does not contain `framerusercontent.com`. -/
theorem replace_matches_by_exact_equality (ts : List String) (u s k : String)
    (hsel : s ∈ ts) (_hnq : jsIncludes s hostSubstr = false) :
    (∀ n : Node, resolvedUrl n = JSValue.str s →
        replaceNode ts u n = (⟨JSValue.str u, JSValue.str u⟩, true))
    ∧ replaceField ts u (k, JSValue.str s) = ((k, JSValue.str u), true) :=
  ⟨fun n hres => replaceNode_matched ts u n s hres hsel,
   replaceField_matched ts u (k, JSValue.str s) s rfl hsel⟩

theorem replace_matches_by_exact_equality_witness :
    replaceNode ["https://example.org/pic.png"] "new"
        ⟨.str "https://example.org/pic.png", .undefined⟩
      = (⟨JSValue.str "new", JSValue.str "new"⟩, true)
    ∧ replaceField ["https://example.org/pic.png"] "new"
        ("f", JSValue.str "https://example.org/pic.png")
      = (("f", JSValue.str "new"), true) :=
  ⟨(replace_matches_by_exact_equality ["https://example.org/pic.png"] "new"
      "https://example.org/pic.png" "f" (by decide) (by decide)).1
    ⟨.str "https://example.org/pic.png", .undefined⟩ (by decide),
   (replace_matches_by_exact_equality ["https://example.org/pic.png"] "new"
      "https://example.org/pic.png" "f" (by decide) (by decide)).2⟩

/-- C8 — every `replace` invocation that passes the preconditions triggers
a full rescan (a `rescan` effect is traced, the displayed usage map is the
scan of the updated host) and clears the pending replacement URL, whatever
the number of actual matches (possibly zero). -/
theorem replace_rescans_and_clears (host : Host) (st : UIState)
    (h1 : st.newUrl ≠ "") (h2 : selectedTargets st ≠ []) :
    Effect.rescan ∈ (replace host st).2.2
    ∧ (replace host st).2.1.newUrl = ""
    ∧ (replace host st).2.1.images = scanUsages (replace host st).1
    ∧ (replace host st).2.1.selected = [] := by
  have hc : ¬(st.newUrl = "" ∨ selectedTargets st = []) := not_or.mpr ⟨h1, h2⟩
  refine ⟨?_, ?_, ?_, ?_⟩ <;> simp only [replace, if_neg hc] <;>
    first
      | exact List.mem_append_right _ (List.mem_singleton_self _)
      | rfl

theorem replace_rescans_and_clears_witness :
    Effect.rescan ∈ (replace ⟨none, none, false⟩
        ⟨fun _ => 0, "https://framerusercontent.com/n", [("gone", true)]⟩).2.2
    ∧ (replace ⟨none, none, false⟩
        ⟨fun _ => 0, "https://framerusercontent.com/n", [("gone", true)]⟩).2.1.newUrl
      = ""
    ∧ (replace ⟨none, none, false⟩
        ⟨fun _ => 0, "https://framerusercontent.com/n", [("gone", true)]⟩).2.1.images
      = scanUsages (replace ⟨none, none, false⟩
        ⟨fun _ => 0, "https://framerusercontent.com/n", [("gone", true)]⟩).1
    ∧ (replace ⟨none, none, false⟩
        ⟨fun _ => 0, "https://framerusercontent.com/n", [("gone", true)]⟩).2.1.selected
      = [] :=
  replace_rescans_and_clears ⟨none, none, false⟩
    ⟨fun _ => 0, "https://framerusercontent.com/n", [("gone", true)]⟩
    (by decide) (by decide)

/-- `parseInt` succeeds on a non-empty parse, so the header was non-empty. -/
theorem jsParseInt_some_ne_empty {s : String} {n : Int}
    (hp : jsParseInt s = some n) : s ≠ "" := by
  intro h
  rw [h] at hp
  rw [show jsParseInt "" = none from rfl] at hp
  exact Option.noConfusion hp

/-- Reduction of `fetchSize` on a present, non-empty header. -/
theorem fetchSize_header_case (hd : NetResult HeadResponse) (g : NetResult Nat)
    (s : String) (hh : hd = NetResult.ok ⟨some s⟩) (hs : s ≠ "") :
    fetchSize ⟨hd, g⟩
      = (match jsParseInt s with
         | some n => FetchSizeResult.size n
         | none => FetchSizeResult.nan) := by
  subst hh
  unfold fetchSize
  simp [hs]

/-- C1 counterexample — for a URL whose HEAD response carries the
malformed `content-length` header `"abc"` and whose body has `42` bytes,
`fetchSize` returns `NaN` (`parseInt('abc')`): the GET-based fallback is
*not* taken (the claim predicts the body length `42`), and the result is
not `undefined` either. -/
theorem fetchSize_malformed_header_cex :
    fetchSize ⟨.ok ⟨some "abc"⟩, .ok 42⟩ = FetchSizeResult.nan
    ∧ FetchSizeResult.nan ≠ FetchSizeResult.size 42
    ∧ FetchSizeResult.nan ≠ FetchSizeResult.undefined := by
  refine ⟨by decide, by decide, by decide⟩

/-- C1 amended — `fetchSize` returns the `parseInt` of the
`content-length` header whenever that header is present and non-empty: the
parsed integer when parsing succeeds, and `NaN` (with *no* GET fallback)
when the header is unparseable.  The GET fallback runs exactly when the
HEAD succeeded but the header is absent or empty, returning the body's
byte length; the result is `undefined` precisely when the HEAD request
failed, or the fallback ran and the body fetch failed.  The function is
total (never throws). -/
theorem fetchSize_behavior (env : FetchEnv) :
    (∀ s n, env.head = NetResult.ok ⟨some s⟩ → jsParseInt s = some n →
        fetchSize env = FetchSizeResult.size n)
    ∧ (∀ s, env.head = NetResult.ok ⟨some s⟩ → s ≠ "" → jsParseInt s = none →
        fetchSize env = FetchSizeResult.nan)
    ∧ (∀ n, headerFalsy env = true → env.get = NetResult.ok n →
        fetchSize env = FetchSizeResult.size n)
    ∧ (fetchSize env = FetchSizeResult.undefined ↔
        env.head = NetResult.err
        ∨ (headerFalsy env = true ∧ env.get = NetResult.err)) := by
  obtain ⟨hd, g⟩ := env
  refine ⟨?_, ?_, ?_, ?_⟩
  · intro s n hh hp
    rw [fetchSize_header_case hd g s hh (jsParseInt_some_ne_empty hp), hp]
  · intro s hh hs hp
    rw [fetchSize_header_case hd g s hh hs, hp]
  · intro n hf hg
    simp only at hg
    subst hg
    cases hd with
    | err => exact absurd hf (by simp [headerFalsy])
    | ok res =>
      obtain ⟨cl⟩ := res
      cases cl with
      | none => simp [fetchSize, fetchBody]
      | some s =>
        have hs : s = "" := by
          simpa [headerFalsy] using hf
        subst hs
        simp [fetchSize, fetchBody]
  · cases hd with
    | err => simp [fetchSize, headerFalsy]
    | ok res =>
      obtain ⟨cl⟩ := res
      cases cl with
      | none =>
        cases g with
        | ok n => simp [fetchSize, fetchBody, headerFalsy]
        | err => simp [fetchSize, fetchBody, headerFalsy]
      | some s =>
        by_cases hs : s = ""
        · subst hs
          cases g with
          | ok n => simp [fetchSize, fetchBody, headerFalsy]
          | err => simp [fetchSize, fetchBody, headerFalsy]
        · rw [fetchSize_header_case (NetResult.ok ⟨some s⟩) g s rfl hs]
          cases hp : jsParseInt s with
          | some n => simp [headerFalsy, hs]
          | none => simp [headerFalsy, hs]

theorem fetchSize_behavior_witness :
    fetchSize ⟨NetResult.ok ⟨some "1234"⟩, NetResult.err⟩
      = FetchSizeResult.size 1234 :=
  (fetchSize_behavior ⟨NetResult.ok ⟨some "1234"⟩, NetResult.err⟩).1
    "1234" 1234 rfl (by decide)

/-- C5 counterexample — when the replacement URL is itself one of the
selected URLs, a "successful" replace rewrites every matching reference to
that same URL, and the subsequent scan still reports it: with one CMS
field holding `https://framerusercontent.com/a`, that URL selected, and
the same URL entered as replacement, the post-replace scan reports count
`1` for the old selected URL, not `0`. -/
theorem replace_selected_replacement_cex :
    (replace ⟨none, some [⟨"c", [⟨"i",
        [("f", JSValue.str "https://framerusercontent.com/a")]⟩]⟩], true⟩
      ⟨fun _ => 0, "https://framerusercontent.com/a",
        [("https://framerusercontent.com/a", true)]⟩).2.1.images
      "https://framerusercontent.com/a" = 1 := by decide

/-- C5 amended — for every replace invocation passing its preconditions,
*provided the replacement URL is not itself a selected URL*: every node
whose resolved `image`/`src` URL is selected ends with both slots holding
the replacement URL, every item field holding a selected URL ends holding
the replacement URL, and the subsequent scan (the usage map displayed
after `replace`) reports zero occurrences of every selected URL.  (A
selected URL sitting in a `src` slot that is shadowed by a different
truthy `image` value is not rewritten, but it is equally invisible to
scans, which only see resolved URLs.) -/
theorem replace_updates_all_references (host : Host) (st : UIState)
    (h1 : st.newUrl ≠ "") (h2 : selectedTargets st ≠ [])
    (h3 : st.newUrl ∉ selectedTargets st) :
    (∀ n : Node, ∀ s : String, resolvedUrl n = JSValue.str s →
        s ∈ selectedTargets st →
        (replaceNode (selectedTargets st) st.newUrl n).1
          = ⟨JSValue.str st.newUrl, JSValue.str st.newUrl⟩)
    ∧ (∀ kv : String × JSValue, ∀ s : String, kv.2 = JSValue.str s →
        s ∈ selectedTargets st →
        (replaceField (selectedTargets st) st.newUrl kv).1
          = (kv.1, JSValue.str st.newUrl))
    ∧ (∀ u ∈ selectedTargets st, (replace host st).2.1.images u = 0) := by
  refine ⟨?_, ?_, ?_⟩
  · intro n s hres hsel
    rw [replaceNode_matched (selectedTargets st) st.newUrl n s hres hsel]
  · intro kv s hv hsel
    rw [replaceField_matched (selectedTargets st) st.newUrl kv s hv hsel]
  · intro u hu
    have hc : ¬(st.newUrl = "" ∨ selectedTargets st = []) := not_or.mpr ⟨h1, h2⟩
    simp only [replace, if_neg hc, scan]
    rw [scanUsages_apply, Nat.add_eq_zero]
    constructor
    · apply List.countP_eq_zero.mpr
      intro n' hn'
      simp only [effNodes, optionMapGetD] at hn'
      obtain ⟨n, -, rfl⟩ := List.mem_map.mp hn'
      intro hq
      exact replaceNode_clears_target (selectedTargets st) st.newUrl n u
        h1 h3 hu (by simpa using hq)
    · apply List.sum_eq_zero
      intro x hx
      obtain ⟨c', hc', rfl⟩ := List.mem_map.mp hx
      simp only [effCols, optionMapGetD] at hc'
      obtain ⟨c, -, rfl⟩ := List.mem_map.mp hc'
      cases havail : host.getItemsAvailable with
      | false => simp [getItems, havail]
      | true =>
        simp only [havail, replaceCollection, if_pos, getItems]
        apply List.sum_eq_zero
        intro y hy
        rw [List.map_map] at hy
        obtain ⟨it, -, rfl⟩ := List.mem_map.mp hy
        apply List.countP_eq_zero.mpr
        intro kv' hkv'
        simp only [Function.comp, replaceItem, List.map_map] at hkv'
        obtain ⟨kv, -, rfl⟩ := List.mem_map.mp hkv'
        intro hq
        exact replaceField_clears_target (selectedTargets st) st.newUrl kv u
          h3 hu (by simpa using hq)

theorem replace_updates_all_references_witness :
    (replace ⟨some [⟨JSValue.str "https://framerusercontent.com/a", .undefined⟩],
        none, true⟩
      ⟨fun _ => 0, "https://framerusercontent.com/new",
        [("https://framerusercontent.com/a", true)]⟩).2.1.images
      "https://framerusercontent.com/a" = 0 :=
  (replace_updates_all_references
    ⟨some [⟨JSValue.str "https://framerusercontent.com/a", .undefined⟩], none, true⟩
    ⟨fun _ => 0, "https://framerusercontent.com/new",
      [("https://framerusercontent.com/a", true)]⟩
    (by decide) (by decide) (by decide)).2.2
    "https://framerusercontent.com/a" (by decide)

example : jsIncludes "https://framerusercontent.com/a" hostSubstr = true := by decide
example : jsIncludes "" hostSubstr = false := by decide
example : qualify (.str "https://framerusercontent.com/a")
    = some "https://framerusercontent.com/a" := by decide
example : resolvedUrl ⟨.str "", .str "b"⟩ = .str "b" := by decide
example :
    scanUsages ⟨some [⟨.str "", .str "https://framerusercontent.com/a"⟩], none, true⟩
      "https://framerusercontent.com/a" = 1 := by decide
example : jsParseInt "abc" = none := by decide
example : jsParseInt "1234" = some 1234 := by decide
example : jsParseInt " -42xy" = some (-42) := by decide
example : jsParseInt "" = none := by decide
example : fetchSize ⟨.ok ⟨some "abc"⟩, .ok 42⟩ = .nan := by decide
example : fetchSize ⟨.ok ⟨some ""⟩, .ok 42⟩ = .size 42 := by decide
example : fetchSize ⟨.ok ⟨none⟩, .err⟩ = .undefined := by decide
example : fetchSize ⟨.err, .ok 7⟩ = .undefined := by decide
example :
    (replace ⟨some [⟨.undefined, .str "x"⟩], none, true⟩
      ⟨fun _ => 0, "y", [("x", true)]⟩).1
      = ⟨some [⟨.str "y", .str "y"⟩], none, true⟩ := by decide
example :
    (replace ⟨some [⟨.undefined, .str "x"⟩], none, true⟩
      ⟨fun _ => 0, "y", [("x", true)]⟩).2.2
      = [.setProps ⟨.undefined, .str "x"⟩ "y", .rescan] := by decide
example :
    (replace ⟨some [⟨.undefined, .str "x"⟩], none, true⟩
      ⟨fun _ => 0, "y", [("x", true)]⟩).2.1.newUrl = "" := by decide
example :
    (replace ⟨some [⟨.undefined, .str "x"⟩], none, true⟩
      ⟨fun _ => 0, "y", [("x", true)]⟩).2.1.images "x" = 0 := by decide

end FramerPlugin
